import Mathlib

/-!
Shallow embedding of the session-scoped reactive state engine of the
`webserver` repository (Go).  The authoritative sources are:

* `src/unnamed/part_002` — the "business" layer over a key-value store:
  `state`, `rower`, `rowerSignals`, `business.Create`, `business.Delete`,
  `business.Watch`, `business.getState`, `business.putState`,
  `updateSignals`, `ageBands`, `newRower`, `calculateAverageAge`,
  `calculateBand`;
* `src/store.go` — the store wrapper: `store.Get`, `store.Put`, `store.Watch`;
* `src/main.go` — the cookie-backed variant: `getRowersFromCookie`.

Modelling conventions:

* Go `int` is embedded as `Int` (the inputs exercised by the spec are far
  below the 64-bit range, so wrap-around never occurs on them);
* Go `float64` quantities (`age` passed to `calculateBand`, the average
  age) are embedded as `ℚ`: every number reaching `calculateBand` is either
  an exact integer cast or a quotient `totalAge/len` of small integers, on
  which binary floating point and exact rational arithmetic order the same
  way against the integer band thresholds;
* `time.Now().Year()` and the randomly drawn `exampleInputAge` are
  injected as explicit parameters (`thisYear`, `exampleInputAge`);
* `json.Marshal`/`json.Unmarshal` of `state` are embedded as an injective
  constructor `blob.enc` plus a stock of undecodable byte strings
  `blob.corrupt`: `json.Marshal` on `state` never fails and round-trips
  exactly, and any other byte string fed to `json.Unmarshal` fails;
* the key-value backend is embedded as the function `Store` from keys to
  optional blobs; backend I/O failures (`StoreUnavailable`) are outside
  the model, so `Get` errors are exactly the key-not-found case the Go
  code tests with `errors.Is(err, ErrKeyNotFound)`.
-/

namespace MastersCalc

/-- Equality of `Except` results is decidable when both components are. -/
instance {ε α : Type} [DecidableEq ε] [DecidableEq α] : DecidableEq (Except ε α)
  | .ok x, .ok y =>
    if h : x = y then .isTrue (congrArg Except.ok h)
    else .isFalse (fun hh => h (Except.ok.inj hh))
  | .ok _, .error _ => .isFalse (fun hh => Except.noConfusion hh)
  | .error _, .ok _ => .isFalse (fun hh => Except.noConfusion hh)
  | .error e, .error f =>
    if h : e = f then .isTrue (congrArg Except.error h)
    else .isFalse (fun hh => h (Except.error.inj hh))

/-- The `rower` struct of `part_002` (and `main.go`). -/
structure rower where
  Name : String
  BirthYear : Int
  Age : Int
  Band : String
deriving Repr, DecidableEq

/-- The `rowerSignals` struct of `part_002`. -/
structure rowerSignals where
  Name : String
  BirthYearOrAge : String
  AverageAge : String
  AverageBand : String
  Example : String
deriving Repr, DecidableEq

/-- The Go zero value of `rowerSignals` (all fields empty strings). -/
def rowerSignals.zero : rowerSignals :=
  { Name := "", BirthYearOrAge := "", AverageAge := "", AverageBand := "", Example := "" }

/-- The `state` struct of `part_002`: the per-session aggregate. -/
structure state where
  Rowers : List rower
  Signals : rowerSignals
deriving Repr, DecidableEq

/-- The Go zero value `&state{}` (nil slice, zero signals). -/
def state.zero : state := { Rowers := [], Signals := rowerSignals.zero }

/-- The `ageBands` table of `part_002`: `(Band, MinAge)` pairs, ascending. -/
def ageBands : List (String × ℚ) :=
  [("A", 27), ("B", 36), ("C", 43), ("D", 50), ("E", 55), ("F", 60),
   ("G", 65), ("H", 70), ("I", 75), ("J", 80), ("K", 85)]

/-- The `minAge` constant: `ageBands[0].MinAge`. -/
def minAge : ℚ := 27

/-- The `maxAge` constant: `ageBands[len(ageBands)-1].MinAge`. -/
def maxAge : ℚ := 85

/-- The loop body of `calculateBand`: walk the table keeping the letter of
the last entry whose threshold is not above `age`, stopping at the first
entry whose threshold exceeds `age` (the `break`). -/
def calculateBandAux (age : ℚ) : List (String × ℚ) → String → String
  | [], band => band
  | (b, m) :: rest, band => if m > age then band else calculateBandAux age rest b

/-- The `calculateBand` function of `part_002`. -/
def calculateBand (age : ℚ) : String :=
  calculateBandAux age ageBands ""

/-- The `calculateAverageAge` function of `part_002`: `0` on the empty
list, otherwise the integer total of the ages divided (as rationals,
standing for the float64 division) by the length. -/
def calculateAverageAge (rowers : List rower) : ℚ :=
  if rowers.length = 0 then 0
  else ((rowers.foldl (fun acc r => acc + r.Age) 0 : Int) : ℚ) / (rowers.length : ℚ)

/-- Distinct error values produced by `newRower`, one per `fmt.Errorf`
site: computed age below 1, or age below the lowest band threshold. -/
inductive rowerErr where
  | invalidAge (birthYearOrAge : Int)
  | tooYoung (name : String) (age : Int)
deriving Repr, DecidableEq

/-- The `newRower` function of `part_002`, with `time.Now().Year()`
injected as `thisYear`. -/
def newRower (thisYear : Int) (name : String) (birthYearOrAge : Int) :
    Except rowerErr rower :=
  let birthYear := if birthYearOrAge < 200 then thisYear - birthYearOrAge else birthYearOrAge
  let age := thisYear - birthYear
  if age < 1 then .error (.invalidAge birthYearOrAge)
  else
    let band := calculateBand (age : ℚ)
    if band = "" then .error (.tooYoung name age)
    else .ok { Name := name, BirthYear := birthYear, Age := age, Band := band }

/-- Rendering of `fmt.Sprintf` with one fixed fractional digit, on the
exact rational value: the integer number of tenths (nearest, ties up —
the averages the engine formats are never ties), split as integer part
and one digit.  The floor is taken directly on the fraction's numerator
and denominator. -/
def formatFixed1 (q : ℚ) : String :=
  let r : ℚ := q * 10 + 1 / 2
  let t : Int := r.num.fdiv (r.den : Int)
  toString (t / 10) ++ "." ++ toString (t % 10).natAbs

/-- The `updateSignals` function of `part_002`, with the randomly drawn
`exampleInputAge` and `time.Now().Year()` injected as parameters. -/
def updateSignals (exampleInputAge thisYear : Int) (s : state) : state :=
  let averageAge := calculateAverageAge s.Rowers
  let averageBand := calculateBand averageAge
  let exampleInputYear := thisYear - exampleInputAge
  { s with Signals :=
    { Name := "", BirthYearOrAge := "",
      AverageAge := formatFixed1 averageAge,
      AverageBand := averageBand,
      Example := "e.g. " ++ toString exampleInputYear ++ " or " ++ toString exampleInputAge } }

/-- Byte strings held by the key-value store under a session key: either
the `json.Marshal` encoding of a `state` (which round-trips exactly), or
one of the byte strings on which `json.Unmarshal` into `state` fails. -/
inductive blob where
  | enc (s : state)
  | corrupt (tag : Nat)
deriving Repr, DecidableEq

/-- The decode failure produced by `json.Unmarshal` on a corrupt blob. -/
inductive decodeErr where
  | decodeFailure
deriving Repr, DecidableEq

/-- Embedding of `json.Marshal` on `state` (never fails). -/
def marshal (s : state) : blob := .enc s

/-- Embedding of `json.Unmarshal` of a stored blob into `state`. -/
def unmarshal : blob → Except decodeErr state
  | .enc s => .ok s
  | .corrupt _ => .error .decodeFailure

/-- The key-value backend contents: each key holds a blob or is absent
(the `ErrKeyNotFound` case of `store.Get`). -/
def Store : Type := String → Option blob

/-- Contents of the backend after `store.Put` (overwrite, last write wins). -/
def Store.put (st : Store) (key : String) (value : blob) : Store :=
  fun k => if k = key then some value else st k

/-- Distinct error values returned by `business.Create` / `business.Delete`,
one per `fmt.Errorf` site on their error paths. -/
inductive engineErr where
  | getStateErr (e : decodeErr)
  | invalidInput (text : String)
  | factoryErr (e : rowerErr)
  | rowNotFound (index : Int)
deriving Repr, DecidableEq

/-- Embedding of `strconv.Atoi`: an optional sign followed by at least one
decimal digit; anything else is a syntax error.  (The 64-bit range error of
the Go function is outside the model; the spec's inputs are small.) -/
def atoi (s : String) : Except String Int :=
  match s.data with
  | [] => .error "invalid syntax"
  | c :: rest =>
    let signed : Bool × List Char :=
      if c = '-' then (true, rest) else if c = '+' then (false, rest) else (false, c :: rest)
    match signed with
    | (neg, digits) =>
      if digits = [] then .error "invalid syntax"
      else if digits.all Char.isDigit then
        let n : Nat := digits.foldl (fun acc d => acc * 10 + (d.toNat - '0'.toNat)) 0
        .ok (if neg then -(n : Int) else (n : Int))
      else .error "invalid syntax"

/-- The `business.getState` method of `part_002`: a missing key reads as
the zero `state`; a present blob is unmarshalled, and an unmarshal failure
is returned to the caller as an error. -/
def getState (st : Store) (key : String) : Except decodeErr state :=
  match st key with
  | none => .ok state.zero
  | some value => unmarshal value

/-- The `business.putState` method of `part_002`: marshal the state (which
cannot fail) and put it under the key. -/
def putState (st : Store) (key : String) (s : state) : Store :=
  st.put key (marshal s)

/-- The `business.Create` method of `part_002`: read the state under the
key, parse the numeric field, build the rower, append it, recompute the
signals, and persist; each failing step returns its error with no put
issued.  The result pairs the returned error status with the store
contents after the call. -/
def Create (exampleInputAge thisYear : Int) (st : Store)
    (key name birthYearOrAgeStr : String) : Except engineErr Unit × Store :=
  match getState st key with
  | .error e => (.error (.getStateErr e), st)
  | .ok s =>
    match atoi birthYearOrAgeStr with
    | .error _ => (.error (.invalidInput birthYearOrAgeStr), st)
    | .ok birthYearOrAge =>
      match newRower thisYear name birthYearOrAge with
      | .error e => (.error (.factoryErr e), st)
      | .ok r =>
        let s1 : state := { s with Rowers := s.Rowers ++ [r] }
        let s2 := updateSignals exampleInputAge thisYear s1
        (.ok (), putState st key s2)

/-- The `business.Delete` method of `part_002`: read the state under the
key, reject an index outside `[0, len)`, remove the element (the
`slices.Delete(s.Rowers, index, index+1)` call), recompute signals,
persist.  The result pairs the returned error status with the store
contents after the call. -/
def Delete (exampleInputAge thisYear : Int) (st : Store)
    (key : String) (index : Int) : Except engineErr Unit × Store :=
  match getState st key with
  | .error e => (.error (.getStateErr e), st)
  | .ok s =>
    if index < 0 ∨ (s.Rowers.length : Int) ≤ index then
      (.error (.rowNotFound index), st)
    else
      let s1 : state := { s with Rowers := s.Rowers.eraseIdx index.toNat }
      let s2 := updateSignals exampleInputAge thisYear s1
      (.ok (), putState st key s2)

/-- Events arriving on the `watcher.Updates()` channel inside
`store.Watch`, in arrival order, together with the loop's two exit
conditions (a cancelled context, a closed channel). -/
inductive watchEvent where
  | ctxDone
  | closed
  | nilEntry
  | entry (value : blob)
deriving Repr, DecidableEq

/-- The loop of `store.Watch` of `store.go`, run over a finite prefix of
channel events: a nil entry is skipped, a context-done or channel-close
event ends the loop with no error, and each entry's value is handed to
the callback, a callback error ending the loop with that error.  The
result records the values handed to the callback, in order, and the
error (if any) the loop returned with. -/
def storeWatchRun (callback : blob → Except String Unit) :
    List watchEvent → List blob × Option String
  | [] => ([], none)
  | .ctxDone :: _ => ([], none)
  | .closed :: _ => ([], none)
  | .nilEntry :: rest => storeWatchRun callback rest
  | .entry v :: rest =>
    match callback v with
    | .error e => ([v], some ("could not handle update: " ++ e))
    | .ok _ =>
      match storeWatchRun callback rest with
      | (delivered, res) => (v :: delivered, res)

/-- Modelled from the spec: the jetstream key-value watcher behind
`store.Watch` is not part of this repository; per the State Store
contract the subscription "delivers every subsequent write to `key`, in
write order" and "delivers nothing for writes that happened strictly
before subscription start".  Given the full write history under the key
and the number of writes already applied when the subscription starts,
the channel carries exactly the later writes, in order. -/
def watchEventsFrom (history : List blob) (startIdx : Nat) : List watchEvent :=
  (history.drop startIdx).map watchEvent.entry

/-- The `callbackWrapper` closure inside `business.Watch`: unmarshal the
delivered value and hand the state to the callback, wrapping either
failure in its message. -/
def callbackWrapper (callback : state → Except String Unit) (value : blob) :
    Except String Unit :=
  match unmarshal value with
  | .error _ => .error "could not unmarshal state"
  | .ok s =>
    match callback s with
    | .error e => .error ("could not execute callback: " ++ e)
    | .ok _ => .ok ()

/-- The `business.Watch` method of `part_002`, run over a finite prefix of
channel events: it first invokes the callback once on the zero state with
freshly computed signals, then runs the store watch loop with the wrapper
that unmarshals each value and passes the state to the callback.  The
result records the states handed to the callback, in order, and the error
(if any) the watch returned with. -/
def businessWatchRun (exampleInputAge thisYear : Int)
    (callback : state → Except String Unit) (events : List watchEvent) :
    List state × Option String :=
  let s0 := updateSignals exampleInputAge thisYear state.zero
  match callback s0 with
  | .error e => ([s0], some ("could not execute callback: " ++ e))
  | .ok _ =>
    match storeWatchRun (callbackWrapper callback) events with
    | (delivered, res) =>
      (s0 :: delivered.filterMap (fun v => (unmarshal v).toOption),
       res.map (fun e => "could not watch key: " ++ e))

/-- Cookie values as seen by `getRowersFromCookie` of `main.go`: a
well-formed base64-encoded gob encoding of a rower list (which
round-trips), a value on which base64 decoding fails, or one on which
gob decoding fails. -/
inductive cookieVal where
  | enc (rowers : List rower)
  | badBase64
  | badGob
deriving Repr, DecidableEq

/-- The `getRowersFromCookie` function of `main.go`: a missing cookie, a
base64 decode failure or a gob decode failure all read as the empty list
(the two failure cases after a logged warning); no error is returned. -/
def getRowersFromCookie : Option cookieVal → List rower
  | none => []
  | some (.enc rowers) => rowers
  | some .badBase64 => []
  | some .badGob => []

/-- The Category Table contract in the spec's words: the letter of the
last band-table entry whose threshold is ≤ the age, empty when no entry
qualifies.  Stated separately from `calculateBand` so the two can be
compared. -/
def bandForSpec (a : ℚ) : String :=
  (((ageBands.filter (fun p => decide (p.2 ≤ a))).getLast?).map Prod.fst).getD ""

/-- Position of a band letter in the band table (table order). -/
def bandPos (band : String) : Nat :=
  (ageBands.map Prod.fst).indexOf band

/-! ### Category Table lemmas -/

theorem calculateBandAux_filter (a : ℚ) (l : List (String × ℚ))
    (hl : l.Pairwise (fun p q => p.2 ≤ q.2)) (band : String) :
    calculateBandAux a l band =
      (((l.filter (fun p => decide (p.2 ≤ a))).getLast?).map Prod.fst).getD band := by
  induction l generalizing band with
  | nil => rfl
  | cons p rest ih =>
    obtain ⟨b, m⟩ := p
    rw [List.pairwise_cons] at hl
    by_cases hm : m > a
    · have hfr : rest.filter (fun p => decide (p.2 ≤ a)) = [] := by
        rw [List.filter_eq_nil_iff]
        intro q hq
        simpa using not_le.mpr (lt_of_lt_of_le hm (hl.1 q hq))
      simp [calculateBandAux, hm, List.filter_cons, not_le.mpr hm, hfr]
    · rw [not_lt] at hm
      have hstep : calculateBandAux a ((b, m) :: rest) band = calculateBandAux a rest b := by
        simp [calculateBandAux, not_lt.mpr hm]
      rw [hstep, ih hl.2 b, List.filter_cons]
      simp only [hm, decide_eq_true_eq, if_pos, List.getLast?_cons]
      cases hfr : rest.filter (fun p => decide (p.2 ≤ a)) with
      | nil => simp
      | cons q qs => simp [List.getLast?_cons]

theorem ageBands_sorted : ageBands.Pairwise (fun p q => p.2 ≤ q.2) := by
  decide

/-- The entries of the band table selected for an age: those whose
threshold is at most the age. -/
def bandFilter (a : ℚ) : List (String × ℚ) :=
  ageBands.filter (fun p => decide (p.2 ≤ a))

theorem calculateBand_eq_bandForSpec (a : ℚ) : calculateBand a = bandForSpec a :=
  calculateBandAux_filter a ageBands ageBands_sorted ""

theorem bandFilter_eq_take (a : ℚ) :
    bandFilter a = ageBands.take (bandFilter a).length := by
  have key : ∀ l : List (String × ℚ), l.Pairwise (fun p q => p.2 ≤ q.2) →
      l.filter (fun p => decide (p.2 ≤ a)) =
        l.take (l.filter (fun p => decide (p.2 ≤ a))).length := by
    intro l hl
    induction l with
    | nil => rfl
    | cons x rest ih =>
      rw [List.pairwise_cons] at hl
      by_cases hx : x.2 ≤ a
      · rw [List.filter_cons, if_pos (by simpa using hx)]
        simp only [List.length_cons, List.take_succ_cons]
        rw [← ih hl.2]
      · have hrest : rest.filter (fun p => decide (p.2 ≤ a)) = [] := by
          rw [List.filter_eq_nil_iff]
          intro q hq
          simpa using fun hqa => hx (le_trans (hl.1 q hq) hqa)
        rw [List.filter_cons, if_neg (by simpa using hx), hrest]
        simp
  exact key ageBands ageBands_sorted

theorem bandFilter_length_le (a : ℚ) : (bandFilter a).length ≤ 11 :=
  List.length_filter_le _ _

/-- The band-table letter at a given table position (empty past the end). -/
def bandAt (k : Nat) : String :=
  ((ageBands[k]?).map Prod.fst).getD ""

theorem bandAt_facts : ∀ k < 11, bandPos (bandAt k) = k ∧ bandAt k ≠ "" := by
  decide

theorem calculateBand_eq_bandAt (a : ℚ) (h : 1 ≤ (bandFilter a).length) :
    calculateBand a = bandAt ((bandFilter a).length - 1) := by
  rw [calculateBand_eq_bandForSpec]
  show (((ageBands.filter (fun p => decide (p.2 ≤ a))).getLast?).map Prod.fst).getD "" = _
  rw [show ageBands.filter (fun p => decide (p.2 ≤ a)) = bandFilter a from rfl]
  nth_rewrite 1 [bandFilter_eq_take a]
  rw [List.getLast?_take, if_neg (by omega)]
  have hlt : (bandFilter a).length - 1 < ageBands.length :=
    lt_of_lt_of_le (by omega) (bandFilter_length_le a)
  rw [List.getElem?_eq_getElem hlt, bandAt, List.getElem?_eq_getElem hlt]
  rfl

theorem bandFilter_length_mono {a b : ℚ} (hab : a ≤ b) :
    (bandFilter a).length ≤ (bandFilter b).length := by
  have key : ∀ l : List (String × ℚ),
      (l.filter (fun p => decide (p.2 ≤ a))).length ≤
        (l.filter (fun p => decide (p.2 ≤ b))).length := by
    intro l
    induction l with
    | nil => exact le_refl _
    | cons x rest ih =>
      rw [List.filter_cons, List.filter_cons]
      by_cases hx : x.2 ≤ a
      · rw [if_pos (by simpa using hx), if_pos (by simpa using le_trans hx hab)]
        simpa using ih
      · rw [if_neg (by simpa using hx)]
        by_cases hxb : x.2 ≤ b
        · rw [if_pos (by simpa using hxb)]
          exact le_trans ih (by simp)
        · rw [if_neg (by simpa using hxb)]
          exact ih
  exact key ageBands

theorem bandFilter_length_pos_iff (a : ℚ) : 1 ≤ (bandFilter a).length ↔ ¬a < 27 := by
  constructor
  · intro h ha
    have hnil : bandFilter a = [] := by
      rw [bandFilter, List.filter_eq_nil_iff]
      intro p hp
      have h27 : (27 : ℚ) ≤ p.2 := by
        have hall : ∀ p ∈ ageBands, (27 : ℚ) ≤ p.2 := by decide
        exact hall p hp
      simp only [decide_eq_true_eq]
      exact fun hpa => absurd (le_trans h27 hpa) (not_le.mpr ha)
    rw [hnil] at h
    simp at h
  · intro ha
    rw [not_lt] at ha
    have hmem : ("A", (27 : ℚ)) ∈ bandFilter a := by
      rw [bandFilter, List.mem_filter]
      exact ⟨by decide, by simpa using ha⟩
    have := List.length_pos.mpr (List.ne_nil_of_mem hmem)
    omega

theorem calculateBand_empty_iff (a : ℚ) : calculateBand a = "" ↔ a < 27 := by
  constructor
  · intro h
    by_contra ha
    have hpos := (bandFilter_length_pos_iff a).mpr ha
    have := (bandAt_facts ((bandFilter a).length - 1)
      (by have := bandFilter_length_le a; omega)).2
    rw [calculateBand_eq_bandAt a hpos] at h
    exact this h
  · intro ha
    have hnil : (bandFilter a).length = 0 := by
      by_contra h
      exact (bandFilter_length_pos_iff a).mp (by omega) ha
    rw [calculateBand_eq_bandForSpec, bandForSpec]
    have : ageBands.filter (fun p => decide (p.2 ≤ a)) = [] :=
      List.length_eq_zero.mp hnil
    rw [this]
    rfl

theorem calculateBand_mono {a b : ℚ} (hab : a ≤ b) (ha : calculateBand a ≠ "") :
    calculateBand b ≠ "" ∧ bandPos (calculateBand a) ≤ bandPos (calculateBand b) := by
  have hka : 1 ≤ (bandFilter a).length := by
    rw [bandFilter_length_pos_iff]
    exact fun h => ha ((calculateBand_empty_iff a).mpr h)
  have hkb : 1 ≤ (bandFilter b).length :=
    le_trans hka (bandFilter_length_mono hab)
  have h1 := bandAt_facts ((bandFilter a).length - 1)
    (by have := bandFilter_length_le a; omega)
  have h2 := bandAt_facts ((bandFilter b).length - 1)
    (by have := bandFilter_length_le b; omega)
  rw [calculateBand_eq_bandAt a hka, calculateBand_eq_bandAt b hkb]
  refine ⟨h2.2, ?_⟩
  rw [h1.1, h2.1]
  have := bandFilter_length_mono hab
  omega

theorem foldl_age_sum (rs : List rower) :
    ∀ c : Int, rs.foldl (fun acc r => acc + r.Age) c = c + (rs.map rower.Age).sum := by
  induction rs with
  | nil => intro c; simp
  | cons r rest ih =>
    intro c
    rw [List.foldl_cons, ih, List.map_cons, List.sum_cons]
    ring

/-! ### Claim theorems for the pure components -/

/-- C5: for every age, `calculateBand` returns the letter of the last
band-table entry whose threshold is ≤ the age (the `bandForSpec`
reading of the table), it is empty exactly when the age is below 27,
and for `a ≤ b` a non-empty `calculateBand a` forces `calculateBand b`
non-empty and at a table position at least that of `calculateBand a`
(monotonic non-decreasing in table order). -/
theorem claimC5_calculateBand_props :
    (∀ a : ℚ, calculateBand a = bandForSpec a) ∧
    (∀ a : ℚ, calculateBand a = "" ↔ a < 27) ∧
    (∀ a b : ℚ, a ≤ b → calculateBand a ≠ "" →
      calculateBand b ≠ "" ∧ bandPos (calculateBand a) ≤ bandPos (calculateBand b)) :=
  ⟨calculateBand_eq_bandForSpec, calculateBand_empty_iff,
    fun _ _ hab ha => calculateBand_mono hab ha⟩

/-- Witness for C5: instantiating the monotonicity conjunct at ages 30
and 40 gives a concrete non-empty, ordered pair of bands. -/
theorem claimC5_calculateBand_props_witness :
    (30 : ℚ) ≤ 40 ∧ calculateBand 30 ≠ "" ∧
      calculateBand 40 ≠ "" ∧ bandPos (calculateBand 30) ≤ bandPos (calculateBand 40) :=
  ⟨by norm_num, by decide, claimC5_calculateBand_props.2.2 30 40 (by norm_num) (by decide)⟩

/-- C4: the entity factory treats an input below 200 as an age (birth
year `thisYear - v`) and any other input as a birth year, computes the
age as `thisYear - birthYear`, fails with the invalid-age error exactly
when the age is below 1, otherwise fails with the too-young error
exactly when the band table yields no band, and otherwise returns a
rower whose age is at least 1, whose band is the non-empty
`calculateBand` of the age, and whose birth year is `thisYear - age`. -/
theorem claimC4_newRower_cases (thisYear : Int) (name : String) (v : Int) :
    (thisYear - (if v < 200 then thisYear - v else v) < 1 →
      newRower thisYear name v = .error (.invalidAge v)) ∧
    (1 ≤ thisYear - (if v < 200 then thisYear - v else v) →
      calculateBand ((thisYear - (if v < 200 then thisYear - v else v) : Int) : ℚ) = "" →
      newRower thisYear name v =
        .error (.tooYoung name (thisYear - (if v < 200 then thisYear - v else v)))) ∧
    (1 ≤ thisYear - (if v < 200 then thisYear - v else v) →
      calculateBand ((thisYear - (if v < 200 then thisYear - v else v) : Int) : ℚ) ≠ "" →
      newRower thisYear name v =
        .ok { Name := name,
              BirthYear := if v < 200 then thisYear - v else v,
              Age := thisYear - (if v < 200 then thisYear - v else v),
              Band := calculateBand
                ((thisYear - (if v < 200 then thisYear - v else v) : Int) : ℚ) } ∧
      (if v < 200 then thisYear - v else v) =
        thisYear - (thisYear - (if v < 200 then thisYear - v else v))) := by
  refine ⟨fun hlt => ?_, fun hge hband => ?_, fun hge hband => ?_⟩
  · rw [newRower, if_pos hlt]
  · rw [newRower, if_neg (not_lt.mpr hge)]
    simp only [hband, if_pos]
  · refine ⟨?_, by omega⟩
    rw [newRower, if_neg (not_lt.mpr hge)]
    simp only [if_neg hband]

/-- Witness for C4: at current year 2025, the input 26 is read as an age
and rejected as too young for any masters category. -/
theorem claimC4_newRower_cases_witness :
    (1 : Int) ≤ 2025 - (if (26 : Int) < 200 then 2025 - 26 else 26) ∧
    calculateBand ((2025 - (if (26 : Int) < 200 then 2025 - 26 else 26) : Int) : ℚ) = "" ∧
    newRower 2025 "Bob" 26 = .error (.tooYoung "Bob" 26) := by
  refine ⟨by norm_num, by decide, ?_⟩
  exact (claimC4_newRower_cases 2025 "Bob" 26).2.1 (by norm_num) (by decide)

/-- C9: the average age of the empty roster is 0 (not an error), the
average age of a non-empty roster is the arithmetic mean of its ages,
and the roster with ages 30 and 40 averages exactly 35. -/
theorem claimC9_averageAge (rs : List rower) :
    calculateAverageAge [] = 0 ∧
    (rs ≠ [] → calculateAverageAge rs = ((rs.map rower.Age).sum : ℚ) / (rs.length : ℚ)) ∧
    calculateAverageAge
      [{ Name := "a", BirthYear := 0, Age := 30, Band := "" },
       { Name := "b", BirthYear := 0, Age := 40, Band := "" }] = 35 := by
  refine ⟨rfl, fun hne => ?_, ?_⟩
  · rw [calculateAverageAge, if_neg (by simpa using hne), foldl_age_sum]
    norm_num
  · rw [calculateAverageAge]
    norm_num [foldl_age_sum]

/-- Witness for C9: the mean conjunct applied to the two-rower roster
with ages 30 and 40. -/
theorem claimC9_averageAge_witness :
    calculateAverageAge
      [{ Name := "a", BirthYear := 0, Age := 30, Band := "" },
       { Name := "b", BirthYear := 0, Age := 40, Band := "" }] =
      (((([{ Name := "a", BirthYear := 0, Age := 30, Band := "" },
           { Name := "b", BirthYear := 0, Age := 40, Band := "" }] :
            List rower).map rower.Age).sum : ℚ) /
        (([{ Name := "a", BirthYear := 0, Age := 30, Band := "" },
           { Name := "b", BirthYear := 0, Age := 40, Band := "" }] :
            List rower).length : ℚ)) :=
  (claimC9_averageAge
    [{ Name := "a", BirthYear := 0, Age := 30, Band := "" },
     { Name := "b", BirthYear := 0, Age := 40, Band := "" }]).2.1 (by decide)


/-! ### Mutation lemmas -/

theorem Store.put_same (st : Store) (key : String) (v : blob) :
    st.put key v key = some v := by
  simp [Store.put]

theorem Create_shape (ea ty : Int) (st : Store) (key name text : String) :
    (∃ e, Create ea ty st key name text = (.error e, st)) ∨
    (∃ s2, Create ea ty st key name text = (.ok (), putState st key s2)) := by
  rcases hg : getState st key with e | s
  · exact .inl ⟨.getStateErr e, by simp only [Create, hg]⟩
  · rcases ha : atoi text with e2 | v
    · exact .inl ⟨.invalidInput text, by simp only [Create, hg, ha]⟩
    · rcases hr : newRower ty name v with e3 | r
      · exact .inl ⟨.factoryErr e3, by simp only [Create, hg, ha, hr]⟩
      · exact .inr ⟨updateSignals ea ty { s with Rowers := s.Rowers ++ [r] },
          by simp only [Create, hg, ha, hr]⟩

theorem Delete_shape (ea ty : Int) (st : Store) (key : String) (i : Int) :
    (∃ e, Delete ea ty st key i = (.error e, st)) ∨
    (∃ s2, Delete ea ty st key i = (.ok (), putState st key s2)) := by
  rcases hg : getState st key with e | s
  · exact .inl ⟨.getStateErr e, by simp only [Delete, hg]⟩
  · by_cases hc : i < 0 ∨ (s.Rowers.length : Int) ≤ i
    · exact .inl ⟨.rowNotFound i, by simp only [Delete, hg]; rw [if_pos hc]⟩
    · exact .inr ⟨updateSignals ea ty { s with Rowers := s.Rowers.eraseIdx i.toNat },
        by simp only [Delete, hg]; rw [if_neg hc]⟩

theorem Delete_success (ea ty : Int) (st : Store) (key : String)
    (s : state) (i : Nat) (hkey : st key = some (marshal s)) (hi : i < s.Rowers.length) :
    Delete ea ty st key (i : Int) =
      (.ok (), putState st key
        (updateSignals ea ty { s with Rowers := s.Rowers.eraseIdx i })) := by
  simp only [Delete, getState, hkey, marshal, unmarshal]
  rw [if_neg (by omega)]
  simp

/-! ### Claim theorems for the mutation operations -/

/-- C3: whenever `Create` or `Delete` returns an error, the store
contents after the call are exactly the contents before it (no put is
issued); in particular `Delete` with an index outside `[0, len)` fails
with the row-not-found error and leaves the stored roster unchanged. -/
theorem claimC3_mutation_error_no_put (ea ty : Int) (st : Store)
    (key name text : String) (i : Int) :
    (∀ e, (Create ea ty st key name text).1 = .error e →
      (Create ea ty st key name text).2 = st) ∧
    (∀ e, (Delete ea ty st key i).1 = .error e →
      (Delete ea ty st key i).2 = st) ∧
    (∀ s : state, st key = some (marshal s) →
      (i < 0 ∨ (s.Rowers.length : Int) ≤ i) →
      (Delete ea ty st key i).1 = .error (.rowNotFound i) ∧
      (Delete ea ty st key i).2 = st) := by
  refine ⟨?_, ?_, ?_⟩
  · intro e he
    rcases Create_shape ea ty st key name text with ⟨e2, hc⟩ | ⟨s2, hc⟩
    · rw [hc]
    · rw [hc] at he
      exact absurd he (by simp)
  · intro e he
    rcases Delete_shape ea ty st key i with ⟨e2, hc⟩ | ⟨s2, hc⟩
    · rw [hc]
    · rw [hc] at he
      exact absurd he (by simp)
  · intro s hkey hout
    simp only [Delete, getState, hkey, marshal, unmarshal]
    rw [if_pos hout]
    exact ⟨rfl, rfl⟩

/-- Witness for C3: deleting index 5 from a stored single-rower roster
fails with the row-not-found error and leaves the store unchanged. -/
theorem claimC3_mutation_error_no_put_witness :
    (Delete 30 2025
        (Store.put (fun _ => none) "session"
          (marshal { Rowers := [{ Name := "Alice", BirthYear := 1988, Age := 37, Band := "B" }],
                     Signals := rowerSignals.zero })) "session" 5).1 =
      .error (.rowNotFound 5) ∧
    (Delete 30 2025
        (Store.put (fun _ => none) "session"
          (marshal { Rowers := [{ Name := "Alice", BirthYear := 1988, Age := 37, Band := "B" }],
                     Signals := rowerSignals.zero })) "session" 5).2 =
      Store.put (fun _ => none) "session"
        (marshal { Rowers := [{ Name := "Alice", BirthYear := 1988, Age := 37, Band := "B" }],
                   Signals := rowerSignals.zero }) :=
  (claimC3_mutation_error_no_put 30 2025 _ "session" "n" "t" 5).2.2
    { Rowers := [{ Name := "Alice", BirthYear := 1988, Age := 37, Band := "B" }],
      Signals := rowerSignals.zero }
    (by rfl) (by norm_num)

/-- C6: a successful `Delete` of a valid index `i` from a stored roster
of length `n` persists under the same key a roster of length `n - 1` in
which every entity before position `i` keeps its position and every
entity after position `i` moves down by one. -/
theorem claimC6_delete_shift (ea ty : Int) (st : Store) (key : String)
    (s : state) (i : Nat) (hkey : st key = some (marshal s)) (hi : i < s.Rowers.length) :
    (Delete ea ty st key (i : Int)).1 = .ok () ∧
    ∃ s2 : state, (Delete ea ty st key (i : Int)).2 key = some (marshal s2) ∧
      s2.Rowers.length = s.Rowers.length - 1 ∧
      (∀ j, j < i → s2.Rowers[j]? = s.Rowers[j]?) ∧
      (∀ j, i < j → j < s.Rowers.length → s2.Rowers[j - 1]? = s.Rowers[j]?) := by
  rw [Delete_success ea ty st key s i hkey hi]
  refine ⟨rfl, updateSignals ea ty { s with Rowers := s.Rowers.eraseIdx i },
    Store.put_same _ _ _, ?_, ?_, ?_⟩
  · show (s.Rowers.eraseIdx i).length = s.Rowers.length - 1
    rw [List.length_eraseIdx, if_pos hi]
  · intro j hj
    show (s.Rowers.eraseIdx i)[j]? = s.Rowers[j]?
    rw [List.getElem?_eraseIdx, if_pos hj]
  · intro j hij hj
    show (s.Rowers.eraseIdx i)[j - 1]? = s.Rowers[j]?
    rw [List.getElem?_eraseIdx, if_neg (by omega)]
    congr 1
    omega

/-- Witness for C6: deleting index 0 from a stored two-rower roster
succeeds and leaves the second rower at position 0. -/
theorem claimC6_delete_shift_witness :
    (Delete 30 2025
        (Store.put (fun _ => none) "session"
          (marshal { Rowers := [{ Name := "Alice", BirthYear := 1988, Age := 37, Band := "B" },
                                { Name := "Carol", BirthYear := 1975, Age := 50, Band := "D" }],
                     Signals := rowerSignals.zero })) "session" ((0 : Nat) : Int)).1 = .ok () ∧
    ∃ s2 : state,
      (Delete 30 2025
          (Store.put (fun _ => none) "session"
            (marshal { Rowers := [{ Name := "Alice", BirthYear := 1988, Age := 37, Band := "B" },
                                  { Name := "Carol", BirthYear := 1975, Age := 50, Band := "D" }],
                       Signals := rowerSignals.zero })) "session" ((0 : Nat) : Int)).2 "session" =
        some (marshal s2) ∧
      s2.Rowers.length = 2 - 1 ∧
      (∀ j, j < 0 → s2.Rowers[j]? =
        ([{ Name := "Alice", BirthYear := 1988, Age := 37, Band := "B" },
          { Name := "Carol", BirthYear := 1975, Age := 50, Band := "D" }] : List rower)[j]?) ∧
      (∀ j, 0 < j → j < 2 → s2.Rowers[j - 1]? =
        ([{ Name := "Alice", BirthYear := 1988, Age := 37, Band := "B" },
          { Name := "Carol", BirthYear := 1975, Age := 50, Band := "D" }] : List rower)[j]?) :=
  claimC6_delete_shift 30 2025 _ "session"
    { Rowers := [{ Name := "Alice", BirthYear := 1988, Age := 37, Band := "B" },
                 { Name := "Carol", BirthYear := 1975, Age := 50, Band := "D" }],
      Signals := rowerSignals.zero } 0 (by rfl) (by norm_num)

/-- C8: a successful `Create` or `Delete` always ends with a put of the
full encoded aggregate under the session key, so the key is never left
absent by a successful engine mutation; in particular deleting the only
rower of a one-rower roster stores a zero-rower aggregate under the key
rather than removing the key. -/
theorem claimC8_success_keeps_key_populated (ea ty : Int) (st : Store)
    (key name text : String) (i : Int) :
    ((Create ea ty st key name text).1 = .ok () →
      ∃ s2, (Create ea ty st key name text).2 key = some (marshal s2)) ∧
    ((Delete ea ty st key i).1 = .ok () →
      ∃ s2, (Delete ea ty st key i).2 key = some (marshal s2)) ∧
    (∀ s : state, st key = some (marshal s) → s.Rowers.length = 1 →
      (Delete ea ty st key ((0 : Nat) : Int)).1 = .ok () ∧
      ∃ s2 : state, (Delete ea ty st key ((0 : Nat) : Int)).2 key = some (marshal s2) ∧
        s2.Rowers = []) := by
  refine ⟨?_, ?_, ?_⟩
  · intro h
    rcases Create_shape ea ty st key name text with ⟨e, hc⟩ | ⟨s2, hc⟩
    · rw [hc] at h
      exact absurd h (by simp)
    · rw [hc]
      exact ⟨s2, Store.put_same _ _ _⟩
  · intro h
    rcases Delete_shape ea ty st key i with ⟨e, hc⟩ | ⟨s2, hc⟩
    · rw [hc] at h
      exact absurd h (by simp)
    · rw [hc]
      exact ⟨s2, Store.put_same _ _ _⟩
  · intro s hkey hlen
    rw [Delete_success ea ty st key s 0 hkey (by omega)]
    refine ⟨rfl, updateSignals ea ty { s with Rowers := s.Rowers.eraseIdx 0 },
      Store.put_same _ _ _, ?_⟩
    show s.Rowers.eraseIdx 0 = []
    cases hrw : s.Rowers with
    | nil => rfl
    | cons x rest =>
      rw [hrw] at hlen
      simp only [List.length_cons] at hlen
      have : rest = [] := List.length_eq_zero.mp (by omega)
      simp [List.eraseIdx, this]

/-- Witness for C8: deleting the only rower of a stored one-rower roster
succeeds and stores a zero-rower aggregate under the key. -/
theorem claimC8_success_keeps_key_populated_witness :
    (Delete 30 2025
        (Store.put (fun _ => none) "session"
          (marshal { Rowers := [{ Name := "Alice", BirthYear := 1988, Age := 37, Band := "B" }],
                     Signals := rowerSignals.zero })) "session" ((0 : Nat) : Int)).1 = .ok () ∧
    ∃ s2 : state,
      (Delete 30 2025
          (Store.put (fun _ => none) "session"
            (marshal { Rowers := [{ Name := "Alice", BirthYear := 1988, Age := 37, Band := "B" }],
                       Signals := rowerSignals.zero })) "session" ((0 : Nat) : Int)).2 "session" =
        some (marshal s2) ∧ s2.Rowers = [] :=
  (claimC8_success_keeps_key_populated 30 2025 _ "session" "n" "t" 0).2.2
    { Rowers := [{ Name := "Alice", BirthYear := 1988, Age := 37, Band := "B" }],
      Signals := rowerSignals.zero }
    (by rfl) (by rfl)

/-! ### Decode failures: the engine versus the cookie variant -/

/-- A store whose "session" key holds a blob that fails to decode. -/
def corruptStore : Store :=
  fun k => if k = "session" then some (.corrupt 0) else none

/-- Counterexample to C1 as stated: with a corrupt blob stored under the
key, the engine's read does not treat the key as an empty roster —
`Create` and `Delete` propagate the decode failure to their caller as an
error, and no put overwrites the corrupt entry, which is still stored
after the call. -/
theorem claimC1_counterexample :
    (Create 30 2025 corruptStore "session" "Alice" "1988").1 =
      .error (.getStateErr .decodeFailure) ∧
    (Delete 30 2025 corruptStore "session" 0).1 =
      .error (.getStateErr .decodeFailure) ∧
    (Create 30 2025 corruptStore "session" "Alice" "1988").2 "session" =
      some (.corrupt 0) :=
  ⟨rfl, rfl, rfl⟩

/-- C1 (amended): in the engine a stored blob that fails to decode makes
`Create` and `Delete` fail with the propagated decode error and issue no
put, so the corrupt entry stays in place; the decode-failure-reads-as-
empty-roster behaviour (with a logged warning) belongs to the cookie
variant's `getRowersFromCookie`, which maps a missing cookie, a base64
decode failure and a gob decode failure all to the empty roster. -/
theorem claimC1_decode_failure_paths (ea ty : Int) (st : Store)
    (key name text : String) (i : Int) (tag : Nat)
    (hkey : st key = some (.corrupt tag)) :
    (Create ea ty st key name text).1 = .error (.getStateErr .decodeFailure) ∧
    (Create ea ty st key name text).2 = st ∧
    (Delete ea ty st key i).1 = .error (.getStateErr .decodeFailure) ∧
    (Delete ea ty st key i).2 = st ∧
    getRowersFromCookie none = [] ∧
    getRowersFromCookie (some .badBase64) = [] ∧
    getRowersFromCookie (some .badGob) = [] := by
  have hg : getState st key = .error .decodeFailure := by
    simp only [getState, hkey, unmarshal]
  refine ⟨?_, ?_, ?_, ?_, rfl, rfl, rfl⟩ <;> simp only [Create, Delete, hg]

/-- Witness for C1 (amended) on the concrete corrupt store. -/
theorem claimC1_decode_failure_paths_witness :
    (Create 30 2025 corruptStore "session" "Alice" "1988").2 = corruptStore ∧
    (Delete 30 2025 corruptStore "session" 0).2 = corruptStore ∧
    getRowersFromCookie (some .badGob) = [] :=
  ⟨(claimC1_decode_failure_paths 30 2025 corruptStore "session" "Alice" "1988" 0 0 rfl).2.1,
   (claimC1_decode_failure_paths 30 2025 corruptStore "session" "Alice" "1988" 0 0 rfl).2.2.2.1,
   (claimC1_decode_failure_paths 30 2025 corruptStore "session" "Alice" "1988" 0 0 rfl).2.2.2.2.2.2⟩

/-! ### Watch delivery -/

theorem storeWatchRun_all_ok (cb : blob → Except String Unit)
    (hok : ∀ v, cb v = .ok ()) (l : List blob) :
    storeWatchRun cb (l.map watchEvent.entry) = (l, none) := by
  induction l with
  | nil => rfl
  | cons v rest ih =>
    simp only [List.map_cons, storeWatchRun, hok v, ih]

/-- C2: a watch subscription started after `startIdx` writes have been
applied under the key invokes its callback exactly once per later write,
in the order the store applied them, and for no write from before
subscription start: the delivered values are exactly
`history.drop startIdx`.  (The channel contents come from the
spec-modelled `watchEventsFrom`; the jetstream watcher itself is not in
the repository.) -/
theorem claimC2_watch_in_order (history : List blob) (startIdx : Nat)
    (cb : blob → Except String Unit) (hok : ∀ v, cb v = .ok ()) :
    (storeWatchRun cb (watchEventsFrom history startIdx)).1 = history.drop startIdx := by
  rw [watchEventsFrom, storeWatchRun_all_ok cb hok]

/-- Witness for C2: subscribing after the first of three writes delivers
exactly the second and third, in order. -/
theorem claimC2_watch_in_order_witness :
    (storeWatchRun (fun _ => .ok ())
        (watchEventsFrom [.corrupt 1, .corrupt 2, .corrupt 3] 1)).1 =
      [blob.corrupt 2, blob.corrupt 3] :=
  claimC2_watch_in_order [.corrupt 1, .corrupt 2, .corrupt 3] 1 _ (fun _ => rfl)

theorem callbackWrapper_marshal_ok (cb : state → Except String Unit)
    (hok : ∀ s, cb s = .ok ()) (s : state) :
    callbackWrapper cb (marshal s) = .ok () := by
  simp only [callbackWrapper, marshal, unmarshal, hok s]

theorem storeWatchRun_wrapper_states (cb : state → Except String Unit)
    (hok : ∀ s, cb s = .ok ()) (states : List state) :
    storeWatchRun (callbackWrapper cb)
        (states.map (fun s => watchEvent.entry (marshal s))) =
      (states.map marshal, none) := by
  induction states with
  | nil => rfl
  | cons s rest ih =>
    simp only [List.map_cons, storeWatchRun, callbackWrapper_marshal_ok cb hok s, ih]

theorem storeWatchRun_wrapper_corrupt (cb : state → Except String Unit)
    (hok : ∀ s, cb s = .ok ()) (states : List state) (tag : Nat) :
    storeWatchRun (callbackWrapper cb)
        (states.map (fun s => watchEvent.entry (marshal s)) ++ [.entry (.corrupt tag)]) =
      (states.map marshal ++ [.corrupt tag],
        some ("could not handle update: " ++ "could not unmarshal state")) := by
  induction states with
  | nil => rfl
  | cons s rest ih =>
    simp only [List.map_cons, List.cons_append, List.append_eq, storeWatchRun,
      callbackWrapper_marshal_ok cb hok s, ih]

theorem filterMap_unmarshal_marshal (states : List state) :
    (states.map marshal).filterMap (fun v => (unmarshal v).toOption) = states := by
  induction states with
  | nil => rfl
  | cons s rest ih =>
    rw [show (List.map marshal (s :: rest)).filterMap (fun v => (unmarshal v).toOption) =
      s :: (List.map marshal rest).filterMap (fun v => (unmarshal v).toOption) from rfl, ih]

unseal Rat.mul Rat.inv Rat.add Rat.sub Rat.ofScientific in
theorem formatFixed1_zero : formatFixed1 0 = "0.0" := by decide

theorem emptySignals_facts (ea ty : Int) :
    (updateSignals ea ty state.zero).Rowers = [] ∧
    (updateSignals ea ty state.zero).Signals.AverageAge = "0.0" ∧
    (updateSignals ea ty state.zero).Signals.AverageBand = "" := by
  refine ⟨rfl, ?_, ?_⟩
  · show formatFixed1 (calculateAverageAge []) = "0.0"
    rw [show calculateAverageAge [] = 0 from rfl, formatFixed1_zero]
  · show calculateBand (calculateAverageAge []) = ""
    decide

/-- C7: a watch first invokes its callback once, before any store event,
on a synthetic state with an empty roster and freshly recomputed signals
(average age "0.0", empty average band); then for every delivered write
it decodes the blob and invokes the callback with the decoded state, in
order; a decode failure, or an error from the callback itself, makes the
watch terminate with an error. -/
theorem claimC7_watch_seed_and_decode (ea ty : Int)
    (cb : state → Except String Unit) (hok : ∀ s, cb s = .ok ())
    (states : List state) (tag : Nat) (msg : String) :
    (updateSignals ea ty state.zero).Rowers = [] ∧
    (updateSignals ea ty state.zero).Signals.AverageAge = "0.0" ∧
    (updateSignals ea ty state.zero).Signals.AverageBand = "" ∧
    businessWatchRun ea ty cb (states.map (fun s => watchEvent.entry (marshal s))) =
      (updateSignals ea ty state.zero :: states, none) ∧
    (businessWatchRun ea ty cb
        (states.map (fun s => watchEvent.entry (marshal s)) ++
          [.entry (.corrupt tag)])).2.isSome = true ∧
    (businessWatchRun ea ty (fun _ => .error msg)
        (states.map (fun s => watchEvent.entry (marshal s)))).2 =
      some ("could not execute callback: " ++ msg) := by
  obtain ⟨h1, h2, h3⟩ := emptySignals_facts ea ty
  refine ⟨h1, h2, h3, ?_, ?_, ?_⟩
  · rw [businessWatchRun]
    simp only [hok, storeWatchRun_wrapper_states cb hok, filterMap_unmarshal_marshal]
    rfl
  · rw [businessWatchRun]
    simp only [hok, storeWatchRun_wrapper_corrupt cb hok]
    rfl
  · rw [businessWatchRun]

/-- Witness for C7 on a one-state history followed by a corrupt write. -/
theorem claimC7_watch_seed_and_decode_witness :
    (updateSignals 30 2025 state.zero).Rowers = [] ∧
    (updateSignals 30 2025 state.zero).Signals.AverageAge = "0.0" ∧
    (updateSignals 30 2025 state.zero).Signals.AverageBand = "" ∧
    businessWatchRun 30 2025 (fun _ => .ok ())
        ([state.zero].map (fun s => watchEvent.entry (marshal s))) =
      (updateSignals 30 2025 state.zero :: [state.zero], none) ∧
    (businessWatchRun 30 2025 (fun _ => .ok ())
        (([state.zero].map (fun s => watchEvent.entry (marshal s))) ++
          [.entry (.corrupt 7)])).2.isSome = true ∧
    (businessWatchRun 30 2025 (fun _ => .error "boom")
        ([state.zero].map (fun s => watchEvent.entry (marshal s)))).2 =
      some ("could not execute callback: " ++ "boom") :=
  claimC7_watch_seed_and_decode 30 2025 (fun _ => .ok ()) (fun _ => rfl)
    [state.zero] 7 "boom"

/-! ### A populated roster of factory-built rowers always carries a band -/

theorem newRower_ok_facts {y v : Int} {nm : String} {r : rower}
    (h : newRower y nm v = .ok r) :
    calculateBand ((r.Age : Int) : ℚ) ≠ "" ∧ 1 ≤ r.Age := by
  simp only [newRower] at h
  by_cases h1 : y - (if v < 200 then y - v else v) < 1
  · rw [if_pos h1] at h
    exact absurd h (by simp)
  · rw [if_neg h1] at h
    by_cases h2 : calculateBand ((y - (if v < 200 then y - v else v) : Int) : ℚ) = ""
    · rw [if_pos h2] at h
      exact absurd h (by simp)
    · rw [if_neg h2] at h
      have hr := Except.ok.inj h
      subst hr
      exact ⟨h2, show (1 : Int) ≤ y - (if v < 200 then y - v else v) by omega⟩

theorem sum_length_le {xs : List Int} {c : Int} (h : ∀ x ∈ xs, c ≤ x) :
    c * (xs.length : Int) ≤ xs.sum := by
  induction xs with
  | nil => simp
  | cons x rest ih =>
    have hx := h x (List.mem_cons_self x rest)
    have hrest := ih (fun y hy => h y (List.mem_cons_of_mem x hy))
    simp only [List.sum_cons, List.length_cons]
    push_cast
    linarith

/-- C10: for a non-empty roster all of whose rowers came out of the
entity factory, the recomputed signals carry a non-empty average band:
every factory-built rower has age at least 27, so the mean age is at
least 27 and the band table yields a band for it. -/
theorem claimC10_populated_roster_band (ea ty : Int) (s : state)
    (hne : s.Rowers ≠ [])
    (hfac : ∀ r ∈ s.Rowers, ∃ y nm v, newRower y nm v = .ok r) :
    (updateSignals ea ty s).Signals.AverageBand ≠ "" := by
  have hage : ∀ r ∈ s.Rowers, (27 : Int) ≤ r.Age := by
    intro r hr
    obtain ⟨y, nm, v, hok⟩ := hfac r hr
    have hband := (newRower_ok_facts hok).1
    have := (calculateBand_empty_iff ((r.Age : Int) : ℚ)).not.mp hband
    rw [not_lt] at this
    exact_mod_cast this
  have hsum : (27 : Int) * ((s.Rowers.map rower.Age).length : Int) ≤
      (s.Rowers.map rower.Age).sum := by
    refine sum_length_le ?_
    intro x hx
    obtain ⟨r, hr, rfl⟩ := List.mem_map.mp hx
    exact hage r hr
  have hlen : s.Rowers.length ≠ 0 := fun h => hne (List.length_eq_zero.mp h)
  have havg : (27 : ℚ) ≤ calculateAverageAge s.Rowers := by
    rw [calculateAverageAge, if_neg hlen, foldl_age_sum]
    rw [le_div_iff₀ (by positivity)]
    push_cast
    have h27 : (27 : ℚ) * ((s.Rowers.map rower.Age).length : ℚ) ≤
        (((s.Rowers.map rower.Age).sum : Int) : ℚ) := by
      exact_mod_cast hsum
    rw [List.length_map] at h27
    push_cast at h27
    linarith
  show calculateBand (calculateAverageAge s.Rowers) ≠ ""
  intro hempty
  have := (calculateBand_empty_iff (calculateAverageAge s.Rowers)).mp hempty
  linarith

/-- Witness for C10: a one-rower roster built by the factory at current
year 2025 from input 1988 carries a non-empty average band. -/
theorem claimC10_populated_roster_band_witness :
    (updateSignals 30 2025
        { Rowers := [{ Name := "Alice", BirthYear := 1988, Age := 37, Band := "B" }],
          Signals := rowerSignals.zero }).Signals.AverageBand ≠ "" :=
  claimC10_populated_roster_band 30 2025
    { Rowers := [{ Name := "Alice", BirthYear := 1988, Age := 37, Band := "B" }],
      Signals := rowerSignals.zero }
    (by simp)
    (by
      intro r hr
      simp only [List.mem_singleton] at hr
      subst hr
      exact ⟨2025, "Alice", 1988, by decide⟩)

end MastersCalc
